import Mathlib

/-!
Shallow embedding of the WebRTC signaling server in `signaling_server.py`
(`handle_client` and the module-level `clients` / `rooms` dictionaries),
together with theorems settling the specification claims.

Modelling choices:
* Python dictionaries become insertion-ordered association lists
  (`assocSet` replaces in place, appends fresh keys at the end, exactly as
  CPython dicts do); Python sets of client identifiers become
  insertion-ordered duplicate-free lists (`set.add` appends when absent,
  `set.discard` filters).
* A websocket connection handle is a `Nat`.  Delivery failure is modelled
  by a parameter `fails : Nat -> Bool`: `ws.send` on a connection `w`
  raises exactly when `fails w = true`.  A raised send inside the per-message
  `try` block aborts the rest of that message's handler (the exception is
  caught by the surrounding `except`, so the receive loop continues); in the
  disconnect-cleanup broadcast every send is wrapped in its own
  `try/except: pass`, so a failure there skips only that one recipient.
* Successful sends are recorded in an append-only log
  `sent : List (Nat x OutMsg)`, ordered as they happen.
* Inbound JSON values are modelled by `JVal`: strings, `null`, and `blob`
  for any other JSON value (treated as an atom the server never inspects).
  A relay message carries its whole decoded record as an association list,
  so that the server's field-preserving forwarding can be stated exactly.
-/

/-- A decoded JSON value as far as the server inspects it: a string,
`null`, or any other value treated as an uninspected atom. -/
inductive JVal where
  | str (s : String)
  | jnull
  | blob (n : Nat)
deriving DecidableEq

/-- Messages the server writes to a connection (`websocket.send` payloads). -/
inductive OutMsg where
  | peerJoined (peer_id peer_name : String)
  | roomJoined (peers : List (String × String))
  | relayMsg (data : List (String × JVal))
  | peerLeft (peer_id : Option String)
deriving DecidableEq

/-- One entry of the `clients` dictionary:
`clients[client_id] = {'ws': ..., 'room_id': ..., 'name': ...}`. -/
structure ClientInfo where
  ws : Nat
  room_id : String
  name : String
deriving DecidableEq

/-- The server's shared state: the `clients` and `rooms` dictionaries,
plus the log of successfully delivered outbound messages. -/
structure ServerState where
  clients : List (String × ClientInfo)
  rooms : List (String × List String)
  sent : List (Nat × OutMsg)
deriving DecidableEq

/-- The per-connection local variables of `handle_client`:
`client_id` and `room_id`, both initially `None`. -/
structure Local where
  client_id : Option String
  room_id : Option String
deriving DecidableEq

/-- An inbound message after JSON decoding and `type` dispatch.
`relay` stands for a record whose `type` field decoded to one of
`offer`, `answer`, `ice_candidate` and carries the whole decoded record;
`badMsg` covers decode failures and unrecognized `type` values, which the
server drops silently. -/
inductive InMsg where
  | join (cid rid nm : Option String)
  | relay (data : List (String × JVal))
  | leave
  | badMsg
deriving DecidableEq

/-- Lookup in an insertion-ordered association list (Python `d[k]` / `k in d`). -/
def assocGet {α β : Type} [DecidableEq α] (l : List (α × β)) (k : α) : Option β :=
  match l with
  | [] => none
  | (k', v) :: t => if k' = k then some v else assocGet t k

/-- Update in an insertion-ordered association list (Python `d[k] = v`):
replaces the first binding of `k` in place, or appends a fresh binding. -/
def assocSet {α β : Type} [DecidableEq α] (l : List (α × β)) (k : α) (v : β) :
    List (α × β) :=
  match l with
  | [] => [(k, v)]
  | (k', v') :: t => if k' = k then (k, v) :: t else (k', v') :: assocSet t k v

/-- Deletion from an association list (Python `del d[k]`): removes the
first binding of `k`, if any. -/
def assocErase {α β : Type} [DecidableEq α] (l : List (α × β)) (k : α) :
    List (α × β) :=
  match l with
  | [] => []
  | (k', v') :: t => if k' = k then t else (k', v') :: assocErase t k

/-- `set.add`: append the element when absent (insertion-ordered set model). -/
def setAdd (l : List String) (x : String) : List String :=
  if x ∈ l then l else l ++ [x]

/-- `set.discard(client_id)` where `client_id` is a local variable that may
still be `None`: discarding `None` from a set of strings is a no-op. -/
def setDiscard (l : List String) (x : Option String) : List String :=
  match x with
  | none => l
  | some c => l.filter (fun y => y ≠ c)

/-- The member set of a room, empty when the room is not registered. -/
def roomMembers (s : ServerState) (r : String) : List String :=
  (assocGet s.rooms r).getD []

/-- An association list whose keys are pairwise distinct (true of every
Python dictionary, and preserved by all dictionary operations). -/
def nodupKeys {α β : Type} (l : List (α × β)) : Prop :=
  (l.map Prod.fst).Nodup

/-- The `join` handler's notification loop:
`for other_id in rooms[room_id]: if other_id != client_id and other_id in
clients: await clients[other_id]['ws'].send(peer_joined)`.  A raising send
aborts the loop (second component `true`); the log holds deliveries made
so far. -/
def joinNotify (fails : Nat → Bool) (cs : List (String × ClientInfo))
    (cid name : String) :
    List String → List (Nat × OutMsg) → List (Nat × OutMsg) × Bool
  | [], log => (log, false)
  | o :: rest, log =>
    if o = cid then joinNotify fails cs cid name rest log
    else
      match assocGet cs o with
      | some info =>
        if fails info.ws then (log, true)
        else joinNotify fails cs cid name rest
          (log ++ [(info.ws, OutMsg.peerJoined cid name)])
      | none => joinNotify fails cs cid name rest log

/-- The `leave` handler's notification loop:
`for other_id in rooms[room_id]: if other_id in clients: await ...send(peer_left)`.
A raising send aborts the loop (second component `true`). -/
def leaveNotify (fails : Nat → Bool) (cs : List (String × ClientInfo))
    (pid : Option String) :
    List String → List (Nat × OutMsg) → List (Nat × OutMsg) × Bool
  | [], log => (log, false)
  | o :: rest, log =>
    match assocGet cs o with
    | some info =>
      if fails info.ws then (log, true)
      else leaveNotify fails cs pid rest (log ++ [(info.ws, OutMsg.peerLeft pid)])
    | none => leaveNotify fails cs pid rest log

/-- The disconnect-cleanup notification loop: like `leaveNotify`, but each
send sits in its own `try/except: pass`, so a failure skips only that
recipient and the loop always runs to completion. -/
def cleanupNotify (fails : Nat → Bool) (cs : List (String × ClientInfo))
    (pid : String) :
    List String → List (Nat × OutMsg) → List (Nat × OutMsg)
  | [], log => log
  | o :: rest, log =>
    match assocGet cs o with
    | some info =>
      if fails info.ws then cleanupNotify fails cs pid rest log
      else cleanupNotify fails cs pid rest (log ++ [(info.ws, OutMsg.peerLeft pid)])
    | none => cleanupNotify fails cs pid rest log

/-- The `join` branch of `handle_client`.  `client_id = data['client_id']`
raises `KeyError` when the field is absent (caught by the per-message
`except`, so nothing at all happens); likewise for `room_id`, but only
after the local `client_id` has already been reassigned.  On a well-formed
join the client entry is written (overwriting any previous binding), the
room is created on demand and the client added, the other members are
notified (a failing send aborts the rest of the handler), and finally the
`room_joined` reply is sent to the joiner. -/
def handleJoin (fails : Nat → Bool) (ws : Nat) (l : Local)
    (cid? rid? nm? : Option String) (s : ServerState) : ServerState × Local :=
  match cid? with
  | none => (s, l)
  | some cid =>
    match rid? with
    | none => (s, { l with client_id := some cid })
    | some rid =>
      let l' : Local := ⟨some cid, some rid⟩
      let name := nm?.getD "Anonymous"
      let cs' := assocSet s.clients cid ⟨ws, rid, name⟩
      let ms' := setAdd ((assocGet s.rooms rid).getD []) cid
      let rs' := assocSet s.rooms rid ms'
      let nres := joinNotify fails cs' cid name ms' s.sent
      let s1 : ServerState := ⟨cs', rs', nres.1⟩
      if nres.2 then (s1, l')
      else
        let peers := ms'.filterMap fun p =>
          if p = cid then none
          else (assocGet cs' p).map fun i => (p, i.name)
        if fails ws then (s1, l')
        else ({ s1 with sent := s1.sent ++ [(ws, OutMsg.roomJoined peers)] }, l')

/-- The relay branch of `handle_client` (`offer` / `answer` /
`ice_candidate`): `target_id = data.get('target')`; only when `target_id`
is truthy (a non-empty string; `null` and `""` are falsy, and a non-string
value is never a key of `clients`) and registered is `data['from']` set to
the sender's `client_id` (JSON `null` when the sender never joined) and
the whole record forwarded to the target's connection.  A failing send
aborts nothing further (it is the last action). -/
def handleRelay (fails : Nat → Bool) (l : Local)
    (data : List (String × JVal)) (s : ServerState) : ServerState :=
  match assocGet data "target" with
  | some (JVal.str t) =>
    if t = "" then s
    else
      match assocGet s.clients t with
      | some info =>
        let data' := assocSet data "from"
          (match l.client_id with
           | some c => JVal.str c
           | none => JVal.jnull)
        if fails info.ws then s
        else { s with sent := s.sent ++ [(info.ws, OutMsg.relayMsg data')] }
      | none => s
  | _ => s

/-- The `leave` branch of `handle_client`: guarded by
`if room_id and room_id in rooms` (so a `None` or empty-string local
`room_id`, or an unregistered room, makes it a no-op).  It discards the
local `client_id` from the member set, notifies the remaining members
(a failing send aborts the handler, skipping the emptiness check), and
deletes the room when its member set is empty.  The `clients` entry and
the local variables are left untouched. -/
def handleLeave (fails : Nat → Bool) (l : Local) (s : ServerState) : ServerState :=
  match l.room_id with
  | none => s
  | some rid =>
    if rid = "" then s
    else
      match assocGet s.rooms rid with
      | none => s
      | some ms =>
        let ms' := setDiscard ms l.client_id
        let rs1 := assocSet s.rooms rid ms'
        let nres := leaveNotify fails s.clients l.client_id ms' s.sent
        if nres.2 then ⟨s.clients, rs1, nres.1⟩
        else if ms' = [] then ⟨s.clients, assocErase rs1 rid, nres.1⟩
        else ⟨s.clients, rs1, nres.1⟩

/-- The `finally` block of `handle_client` (disconnect-cleanup): when the
local `client_id` is truthy, delete the client entry if registered; then,
when the local `room_id` is truthy and registered, discard the client from
the member set, notify every remaining registered member with per-recipient
error swallowing, and delete the room when its member set is empty. -/
def handleCleanup (fails : Nat → Bool) (l : Local) (s : ServerState) : ServerState :=
  match l.client_id with
  | none => s
  | some cid =>
    if cid = "" then s
    else
      let cs1 := assocErase s.clients cid
      match l.room_id with
      | none => ⟨cs1, s.rooms, s.sent⟩
      | some rid =>
        if rid = "" then ⟨cs1, s.rooms, s.sent⟩
        else
          match assocGet s.rooms rid with
          | none => ⟨cs1, s.rooms, s.sent⟩
          | some ms =>
            let ms' := ms.filter (fun y => y ≠ cid)
            let rs1 := assocSet s.rooms rid ms'
            let log1 := cleanupNotify fails cs1 cid ms' s.sent
            if ms' = [] then ⟨cs1, assocErase rs1 rid, log1⟩
            else ⟨cs1, rs1, log1⟩

/-- Dispatch of one received frame (the body of the `async for` loop). -/
def handleMsg (fails : Nat → Bool) (ws : Nat) (l : Local) (m : InMsg)
    (s : ServerState) : ServerState × Local :=
  match m with
  | InMsg.join c r n => handleJoin fails ws l c r n s
  | InMsg.relay data => (handleRelay fails l data s, l)
  | InMsg.leave => (handleLeave fails l s, l)
  | InMsg.badMsg => (s, l)

/-- An externally visible event of the whole server: a connection opening,
a frame arriving on a connection, or a connection terminating (which runs
disconnect-cleanup exactly once). -/
inductive Event where
  | connect (ws : Nat)
  | recv (ws : Nat) (m : InMsg)
  | disconnect (ws : Nat)

/-- The server state together with the live connections and their
`handle_client` local variables. -/
structure World where
  server : ServerState
  conns : List (Nat × Local)

/-- One event of the interleaved execution of all connection handlers. -/
def stepW (fails : Nat → Bool) (w : World) : Event → World
  | Event.connect ws =>
    if (assocGet w.conns ws).isSome then w
    else ⟨w.server, w.conns ++ [(ws, ⟨none, none⟩)]⟩
  | Event.recv ws m =>
    match assocGet w.conns ws with
    | some l =>
      let r := handleMsg fails ws l m w.server
      ⟨r.1, assocSet w.conns ws r.2⟩
    | none => w
  | Event.disconnect ws =>
    match assocGet w.conns ws with
    | some l => ⟨handleCleanup fails l w.server, assocErase w.conns ws⟩
    | none => w

/-- Execution of a finite event sequence from the empty initial state
(both registries empty, no connections, nothing sent). -/
def run (fails : Nat → Bool) (es : List Event) : World :=
  es.foldl (stepW fails) ⟨⟨[], [], []⟩, []⟩

/-- Whether an outbound message is a `peer_left` notification. -/
def isPeerLeft : OutMsg → Bool
  | OutMsg.peerLeft _ => true
  | _ => false

/-- Whether an outbound message is a forwarded relay message. -/
def isRelayed : OutMsg → Bool
  | OutMsg.relayMsg _ => true
  | _ => false

/-! ### Association-list lemmas -/

theorem assocGet_assocSet_self {α β : Type} [DecidableEq α]
    (l : List (α × β)) (k : α) (v : β) :
    assocGet (assocSet l k v) k = some v := by
  induction l with
  | nil => simp [assocGet, assocSet]
  | cons q t ih =>
    obtain ⟨a, b⟩ := q
    by_cases ha : a = k
    · simp [assocSet, assocGet, ha]
    · simp [assocSet, assocGet, ha, ih]

theorem assocGet_assocSet_ne {α β : Type} [DecidableEq α]
    (l : List (α × β)) (k k' : α) (v : β) (h : k' ≠ k) :
    assocGet (assocSet l k v) k' = assocGet l k' := by
  have h' : ¬(k = k') := fun e => h e.symm
  induction l with
  | nil => simp [assocGet, assocSet, h']
  | cons q t ih =>
    obtain ⟨a, b⟩ := q
    by_cases ha : a = k
    · simp [assocSet, assocGet, ha, h']
    · simp [assocSet, assocGet, ha, ih]

theorem assocSet_get_self {α β : Type} [DecidableEq α]
    (l : List (α × β)) (k : α) (v : β) (h : assocGet l k = some v) :
    assocSet l k v = l := by
  induction l with
  | nil => simp [assocGet] at h
  | cons q t ih =>
    obtain ⟨a, b⟩ := q
    by_cases ha : a = k
    · simp [assocGet, ha] at h
      simp [assocSet, ha, h]
    · simp [assocGet, ha] at h
      simp [assocSet, ha, ih h]

theorem mem_assocSet {α β : Type} [DecidableEq α]
    {l : List (α × β)} {k : α} {v : β} {p : α × β}
    (h : p ∈ assocSet l k v) : p = (k, v) ∨ p ∈ l := by
  induction l with
  | nil => simpa [assocSet] using h
  | cons q t ih =>
    obtain ⟨a, b⟩ := q
    by_cases ha : a = k
    · subst ha
      rw [assocSet, if_pos rfl, List.mem_cons] at h
      exact h.imp id (List.mem_cons_of_mem _)
    · rw [assocSet, if_neg ha] at h
      rcases List.mem_cons.mp h with h | h
      · exact Or.inr (by simp [h])
      · rcases ih h with h' | h'
        · exact Or.inl h'
        · exact Or.inr (List.mem_cons_of_mem _ h')

theorem mem_assocErase {α β : Type} [DecidableEq α]
    {l : List (α × β)} {k : α} {p : α × β}
    (h : p ∈ assocErase l k) : p ∈ l := by
  induction l with
  | nil => simp [assocErase] at h
  | cons q t ih =>
    obtain ⟨a, b⟩ := q
    by_cases ha : a = k
    · rw [assocErase, if_pos ha] at h
      exact List.mem_cons_of_mem _ h
    · rw [assocErase, if_neg ha] at h
      rcases List.mem_cons.mp h with h | h
      · simp [h]
      · exact List.mem_cons_of_mem _ (ih h)

theorem mem_assocErase_assocSet {α β : Type} [DecidableEq α]
    {l : List (α × β)} {k : α} {v : β} {p : α × β}
    (h : p ∈ assocErase (assocSet l k v) k) : p ∈ l := by
  induction l with
  | nil => simp [assocSet, assocErase] at h
  | cons q t ih =>
    obtain ⟨a, b⟩ := q
    by_cases ha : a = k
    · rw [assocSet, if_pos ha, assocErase, if_pos rfl] at h
      exact List.mem_cons_of_mem _ h
    · rw [assocSet, if_neg ha, assocErase, if_neg ha] at h
      rcases List.mem_cons.mp h with h | h
      · simp [h]
      · exact List.mem_cons_of_mem _ (ih h)

theorem mem_of_assocGet {α β : Type} [DecidableEq α]
    {l : List (α × β)} {k : α} {v : β}
    (h : assocGet l k = some v) : (k, v) ∈ l := by
  induction l with
  | nil => simp [assocGet] at h
  | cons q t ih =>
    obtain ⟨a, b⟩ := q
    by_cases ha : a = k
    · rw [assocGet, if_pos ha] at h
      cases h
      simp [ha]
    · rw [assocGet, if_neg ha] at h
      exact List.mem_cons_of_mem _ (ih h)

theorem assocGet_eq_none_of_not_mem {α β : Type} [DecidableEq α]
    {l : List (α × β)} {k : α}
    (h : k ∉ l.map Prod.fst) : assocGet l k = none := by
  induction l with
  | nil => simp [assocGet]
  | cons q t ih =>
    rw [List.map_cons, List.mem_cons] at h
    push_neg at h
    rw [assocGet, if_neg (fun e => h.1 e.symm)]
    exact ih h.2

theorem mem_keys_assocSet {α β : Type} [DecidableEq α]
    {l : List (α × β)} {k k' : α} {v : β}
    (h : k' ∈ (assocSet l k v).map Prod.fst) :
    k' = k ∨ k' ∈ l.map Prod.fst := by
  rw [List.mem_map] at h
  obtain ⟨p, hp, he⟩ := h
  rcases mem_assocSet hp with h' | h'
  · exact Or.inl (by rw [← he, h'])
  · exact Or.inr (by rw [← he]; exact List.mem_map_of_mem _ h')

theorem nodupKeys_cons_iff {α β : Type} {q : α × β} {t : List (α × β)} :
    nodupKeys (q :: t) ↔ q.1 ∉ t.map Prod.fst ∧ nodupKeys t := by
  unfold nodupKeys
  rw [List.map_cons, List.nodup_cons]

theorem nodupKeys_assocSet {α β : Type} [DecidableEq α]
    {l : List (α × β)} (k : α) (v : β)
    (h : nodupKeys l) : nodupKeys (assocSet l k v) := by
  induction l with
  | nil =>
    unfold nodupKeys
    simp [assocSet]
  | cons q t ih =>
    obtain ⟨a, b⟩ := q
    rw [nodupKeys_cons_iff] at h
    by_cases ha : a = k
    · rw [assocSet, if_pos ha, nodupKeys_cons_iff]
      exact ⟨by rw [← ha]; exact h.1, h.2⟩
    · rw [assocSet, if_neg ha, nodupKeys_cons_iff]
      refine ⟨fun hc => ?_, ih h.2⟩
      rcases mem_keys_assocSet hc with h' | h'
      · exact ha h'
      · exact h.1 h'

theorem assocGet_assocErase_self {α β : Type} [DecidableEq α]
    {l : List (α × β)} {k : α}
    (h : nodupKeys l) : assocGet (assocErase l k) k = none := by
  induction l with
  | nil => simp [assocErase, assocGet]
  | cons q t ih =>
    obtain ⟨a, b⟩ := q
    rw [nodupKeys_cons_iff] at h
    by_cases ha : a = k
    · rw [assocErase, if_pos ha]
      exact assocGet_eq_none_of_not_mem (by rw [← ha]; exact h.1)
    · rw [assocErase, if_neg ha, assocGet, if_neg ha]
      exact ih h.2

theorem assocGet_assocErase_assocSet {α β : Type} [DecidableEq α]
    {l : List (α × β)} (k : α) (v : β)
    (h : nodupKeys l) :
    assocGet (assocErase (assocSet l k v) k) k = none :=
  assocGet_assocErase_self (nodupKeys_assocSet k v h)

theorem assocErase_of_get_none {α β : Type} [DecidableEq α]
    {l : List (α × β)} {k : α}
    (h : assocGet l k = none) : assocErase l k = l := by
  induction l with
  | nil => simp [assocErase]
  | cons q t ih =>
    obtain ⟨a, b⟩ := q
    by_cases ha : a = k
    · rw [assocGet, if_pos ha] at h
      cases h
    · rw [assocGet, if_neg ha] at h
      rw [assocErase, if_neg ha, ih h]

/-! ### Notification-loop lemmas -/

theorem cleanupNotify_log_mono {fails : Nat → Bool}
    {cs : List (String × ClientInfo)} {pid : String}
    {ms : List String} {log : List (Nat × OutMsg)} {m : Nat × OutMsg}
    (h : m ∈ log) : m ∈ cleanupNotify fails cs pid ms log := by
  induction ms generalizing log with
  | nil => simpa [cleanupNotify] using h
  | cons o rest ih =>
    cases hc : assocGet cs o with
    | none =>
      simp only [cleanupNotify, hc]
      exact ih h
    | some info =>
      by_cases hf : fails info.ws
      · simp only [cleanupNotify, hc, hf, if_true]
        exact ih h
      · simp only [cleanupNotify, hc, hf, Bool.false_eq_true, if_false]
        exact ih (by simp [h])

theorem mem_cleanupNotify {fails : Nat → Bool}
    {cs : List (String × ClientInfo)} {pid : String}
    {ms : List String} {log : List (Nat × OutMsg)} {o : String} {info : ClientInfo}
    (ho : o ∈ ms) (hi : assocGet cs o = some info) (hf : fails info.ws = false) :
    (info.ws, OutMsg.peerLeft (some pid)) ∈ cleanupNotify fails cs pid ms log := by
  induction ms generalizing log with
  | nil => simp at ho
  | cons o' rest ih =>
    rcases List.mem_cons.mp ho with he | ho'
    · subst he
      simp only [cleanupNotify, hi, hf, Bool.false_eq_true, if_false]
      exact cleanupNotify_log_mono (by simp)
    · cases hc : assocGet cs o' with
      | none =>
        simp only [cleanupNotify, hc]
        exact ih ho'
      | some info' =>
        by_cases hf' : fails info'.ws
        · simp only [cleanupNotify, hc, hf', if_true]
          exact ih ho'
        · simp only [cleanupNotify, hc, hf', Bool.false_eq_true, if_false]
          exact ih ho'

/-! ### Handler-level registry lemmas -/

theorem handleLeave_clients (fails : Nat → Bool) (l : Local) (s : ServerState) :
    (handleLeave fails l s).clients = s.clients := by
  obtain ⟨cid?, rid?⟩ := l
  cases rid? with
  | none => rfl
  | some rid =>
    by_cases hr : rid = ""
    · simp [handleLeave, hr]
    · cases hm : assocGet s.rooms rid with
      | none => simp [handleLeave, hr, hm]
      | some ms =>
        simp only [handleLeave, hr, if_neg hr, hm]
        by_cases hab : (leaveNotify fails s.clients cid?
            (setDiscard ms cid?) s.sent).2
        · simp [hab]
        · by_cases he : setDiscard ms cid? = [] <;> simp [hab, he, leaveNotify]

theorem handleRelay_clients (fails : Nat → Bool) (l : Local)
    (data : List (String × JVal)) (s : ServerState) :
    (handleRelay fails l data s).clients = s.clients := by
  cases ht : assocGet data "target" with
  | none => simp [handleRelay, ht]
  | some v =>
    cases v with
    | jnull => simp [handleRelay, ht]
    | blob n => simp [handleRelay, ht]
    | str t =>
      by_cases h0 : t = ""
      · simp [handleRelay, ht, h0]
      · cases hc : assocGet s.clients t with
        | none => simp [handleRelay, ht, h0, hc]
        | some info =>
          by_cases hf : fails info.ws <;> simp [handleRelay, ht, h0, hc, hf]

theorem handleRelay_rooms (fails : Nat → Bool) (l : Local)
    (data : List (String × JVal)) (s : ServerState) :
    (handleRelay fails l data s).rooms = s.rooms := by
  cases ht : assocGet data "target" with
  | none => simp [handleRelay, ht]
  | some v =>
    cases v with
    | jnull => simp [handleRelay, ht]
    | blob n => simp [handleRelay, ht]
    | str t =>
      by_cases h0 : t = ""
      · simp [handleRelay, ht, h0]
      · cases hc : assocGet s.clients t with
        | none => simp [handleRelay, ht, h0, hc]
        | some info =>
          by_cases hf : fails info.ws <;> simp [handleRelay, ht, h0, hc, hf]

/-! ### The room-registry invariant -/

/-- Every entry of the room registry has a non-empty member set. -/
def roomsOk (s : ServerState) : Prop :=
  ∀ p ∈ s.rooms, p.2 ≠ []

theorem roomsOk_handleJoin (fails : Nat → Bool) (ws : Nat) (l : Local)
    (cid? rid? nm? : Option String) (s : ServerState)
    (h : roomsOk s) : roomsOk (handleJoin fails ws l cid? rid? nm? s).1 := by
  cases cid? with
  | none => exact h
  | some cid =>
    cases rid? with
    | none => exact h
    | some rid =>
      have hset : ∀ p, p ∈ assocSet s.rooms rid
          (setAdd ((assocGet s.rooms rid).getD []) cid) → p.2 ≠ [] := by
        intro p hp
        rcases mem_assocSet hp with he | hin
        · subst he
          simp only
          unfold setAdd
          by_cases hc : cid ∈ (assocGet s.rooms rid).getD []
          · rw [if_pos hc]
            exact fun e => by simp [e] at hc
          · rw [if_neg hc]
            simp
        · exact h p hin
      simp only [handleJoin]
      by_cases hab : (joinNotify fails (assocSet s.clients cid ⟨ws, rid, nm?.getD "Anonymous"⟩)
          cid (nm?.getD "Anonymous")
          (setAdd ((assocGet s.rooms rid).getD []) cid) s.sent).2
      · simp only [hab, if_true]
        exact hset
      · simp only [hab, Bool.false_eq_true, if_false]
        by_cases hf : fails ws <;> simp only [hf, if_true, Bool.false_eq_true, if_false] <;>
          exact hset

theorem roomsOk_handleLeave (fails : Nat → Bool) (l : Local) (s : ServerState)
    (h : roomsOk s) : roomsOk (handleLeave fails l s) := by
  obtain ⟨cid?, rid?⟩ := l
  cases rid? with
  | none => exact h
  | some rid =>
    by_cases hr : rid = ""
    · simp only [handleLeave, hr, if_true]
      exact h
    · cases hm : assocGet s.rooms rid with
      | none =>
        simp only [handleLeave, hr, Bool.false_eq_true, if_false, hm]
        exact h
      | some ms =>
        simp only [handleLeave, hr, if_neg hr, hm]
        by_cases he : setDiscard ms cid? = []
        · simp only [he, leaveNotify, Bool.false_eq_true, if_false, if_true]
          intro p hp
          exact h p (mem_assocErase_assocSet (by simpa [he] using hp))
        · have hmem : ∀ p, p ∈ assocSet s.rooms rid (setDiscard ms cid?) → p.2 ≠ [] := by
            intro p hp
            rcases mem_assocSet hp with h' | h'
            · subst h'
              exact he
            · exact h p h'
          by_cases hab : (leaveNotify fails s.clients cid? (setDiscard ms cid?) s.sent).2
          · simp only [hab, if_true]
            exact hmem
          · simp only [hab, Bool.false_eq_true, if_false, he, if_neg he]
            exact hmem

theorem roomsOk_handleCleanup (fails : Nat → Bool) (l : Local) (s : ServerState)
    (h : roomsOk s) : roomsOk (handleCleanup fails l s) := by
  obtain ⟨cid?, rid?⟩ := l
  cases cid? with
  | none => exact h
  | some cid =>
    by_cases hc : cid = ""
    · simp only [handleCleanup, hc, if_true]
      exact h
    · cases rid? with
      | none =>
        simp only [handleCleanup, hc, Bool.false_eq_true, if_false]
        exact h
      | some rid =>
        by_cases hr : rid = ""
        · simp only [handleCleanup, hc, hr, Bool.false_eq_true, if_false, if_true]
          exact h
        · cases hm : assocGet s.rooms rid with
          | none =>
            simp only [handleCleanup, hc, hr, Bool.false_eq_true, if_false, hm]
            exact h
          | some ms =>
            simp only [handleCleanup, hc, hr, if_neg hc, if_neg hr, hm]
            by_cases he : ms.filter (fun y => y ≠ cid) = []
            · simp only [he, if_true]
              intro p hp
              exact h p (mem_assocErase_assocSet (by simpa [he] using hp))
            · simp only [if_neg he]
              intro p hp
              rcases mem_assocSet hp with h' | h'
              · subst h'
                exact he
              · exact h p h'

theorem roomsOk_handleMsg (fails : Nat → Bool) (ws : Nat) (l : Local)
    (m : InMsg) (s : ServerState)
    (h : roomsOk s) : roomsOk (handleMsg fails ws l m s).1 := by
  cases m with
  | join c r n => exact roomsOk_handleJoin fails ws l c r n s h
  | relay data =>
    intro p hp
    exact h p (by rwa [handleMsg, handleRelay_rooms] at hp)
  | leave => exact roomsOk_handleLeave fails l s h
  | badMsg => exact h

theorem roomsOk_stepW (fails : Nat → Bool) (w : World) (e : Event)
    (h : roomsOk w.server) : roomsOk (stepW fails w e).server := by
  cases e with
  | connect ws =>
    by_cases hc : (assocGet w.conns ws).isSome <;> simp only [stepW, hc, if_true,
      Bool.false_eq_true, if_false] <;> exact h
  | recv ws m =>
    cases hc : assocGet w.conns ws with
    | none =>
      simp only [stepW, hc]
      exact h
    | some l =>
      simp only [stepW, hc]
      exact roomsOk_handleMsg fails ws l m w.server h
  | disconnect ws =>
    cases hc : assocGet w.conns ws with
    | none =>
      simp only [stepW, hc]
      exact h
    | some l =>
      simp only [stepW, hc]
      exact roomsOk_handleCleanup fails l w.server h

theorem roomsOk_run (fails : Nat → Bool) (es : List Event) :
    roomsOk (run fails es).server := by
  rw [run]
  have aux : ∀ (es' : List Event) (w : World), roomsOk w.server →
      roomsOk (es'.foldl (stepW fails) w).server := by
    intro es'
    induction es' with
    | nil => exact fun w h => h
    | cons e rest ih =>
      intro w h
      exact ih (stepW fails w e) (roomsOk_stepW fails w e h)
  refine aux es ⟨⟨[], [], []⟩, []⟩ ?_
  intro p hp
  simp at hp

/-! ### Further handler characterization lemmas -/

theorem handleJoin_clients (fails : Nat → Bool) (ws : Nat) (l : Local)
    (cid rid : String) (nm? : Option String) (s : ServerState) :
    (handleJoin fails ws l (some cid) (some rid) nm? s).1.clients
      = assocSet s.clients cid ⟨ws, rid, nm?.getD "Anonymous"⟩ := by
  simp only [handleJoin]
  by_cases hab : (joinNotify fails (assocSet s.clients cid ⟨ws, rid, nm?.getD "Anonymous"⟩)
      cid (nm?.getD "Anonymous") (setAdd ((assocGet s.rooms rid).getD []) cid) s.sent).2
  · simp [hab]
  · by_cases hf : fails ws <;> simp [hab, hf]

theorem handleJoin_rooms (fails : Nat → Bool) (ws : Nat) (l : Local)
    (cid rid : String) (nm? : Option String) (s : ServerState) :
    (handleJoin fails ws l (some cid) (some rid) nm? s).1.rooms
      = assocSet s.rooms rid (setAdd ((assocGet s.rooms rid).getD []) cid) := by
  simp only [handleJoin]
  by_cases hab : (joinNotify fails (assocSet s.clients cid ⟨ws, rid, nm?.getD "Anonymous"⟩)
      cid (nm?.getD "Anonymous") (setAdd ((assocGet s.rooms rid).getD []) cid) s.sent).2
  · simp [hab]
  · by_cases hf : fails ws <;> simp [hab, hf]

theorem handleCleanup_clients (fails : Nat → Bool) (cid : String) (rid? : Option String)
    (s : ServerState) (hcid : cid ≠ "") :
    (handleCleanup fails ⟨some cid, rid?⟩ s).clients = assocErase s.clients cid := by
  cases rid? with
  | none => simp [handleCleanup, hcid]
  | some rid =>
    by_cases hr : rid = ""
    · simp [handleCleanup, hcid, hr]
    · cases hm : assocGet s.rooms rid with
      | none => simp [handleCleanup, hcid, hr, hm]
      | some ms =>
        simp only [handleCleanup, if_neg hcid, if_neg hr, hm]
        split <;> rfl

theorem mem_setAdd_self (l : List String) (x : String) : x ∈ setAdd l x := by
  unfold setAdd
  by_cases hc : x ∈ l
  · rwa [if_pos hc]
  · rw [if_neg hc]
    simp

theorem setDiscard_idem (ms : List String) (x : Option String) :
    setDiscard (setDiscard ms x) x = setDiscard ms x := by
  cases x with
  | none => rfl
  | some c =>
    simp only [setDiscard]
    induction ms with
    | nil => rfl
    | cons y t ih =>
      by_cases hy : y = c
      · simp [hy, ih]
      · simp [hy, ih]

theorem handleLeave_rooms_stable (fails : Nat → Bool) (cid? : Option String)
    (rid : String) (s1 : ServerState) (ms' : List String)
    (hr : rid ≠ "") (hm : assocGet s1.rooms rid = some ms')
    (hd : setDiscard ms' cid? = ms') (he : ms' ≠ []) :
    (handleLeave fails ⟨cid?, some rid⟩ s1).rooms = s1.rooms := by
  simp only [handleLeave, if_neg hr, hm, hd]
  rw [assocSet_get_self _ _ _ hm]
  by_cases hab : (leaveNotify fails s1.clients cid? ms' s1.sent).2
  · simp [hab]
  · simp [hab, he]

/-! ### Claim theorems -/

/-- C1: for every reachable state of the registries (any finite sequence of
connection, message and disconnect events executed from the empty initial
state, under any pattern of send failures), a room identifier is present in
the room registry if and only if its member set is non-empty.  The `join`,
`leave` and disconnect-cleanup handlers never leave an empty member set
registered: `leave` and cleanup delete the room entry in the very step in
which the set becomes empty. -/
theorem c1_room_registered_iff_members_nonempty (fails : Nat → Bool)
    (es : List Event) (r : String) :
    (assocGet (run fails es).server.rooms r).isSome = true ↔
      roomMembers (run fails es).server r ≠ [] := by
  have h := roomsOk_run fails es
  cases hm : assocGet (run fails es).server.rooms r with
  | none => simp [roomMembers, hm]
  | some ms =>
    simp only [roomMembers, hm, Option.isSome_some, Option.getD_some, true_iff]
    exact h (r, ms) (mem_of_assocGet hm)

/-- The mutual-consistency property of claim C2, on a server state: every
registered client's stored room identifier names a room whose member set
contains that client. -/
def clientRoomConsistent (s : ServerState) : Prop :=
  ∀ p ∈ s.clients, p.1 ∈ roomMembers s p.2.room_id

/-- C2 counterexample: the run in which client `a` joins room `r`, client
`b` joins `r`, and `a` then sends an explicit `leave`.  The `leave` handler
removes `a` from the room's member set but neither clears nor removes `a`'s
client entry, so the registered client `a` still stores room `r` while no
longer being a member of it: the two registries are not mutually
consistent after that reachable sequence. -/
theorem c2_counterexample :
    ¬ clientRoomConsistent (run (fun _ => false)
      [Event.connect 0, Event.recv 0 (InMsg.join (some "a") (some "r") none),
       Event.connect 1, Event.recv 1 (InMsg.join (some "b") (some "r") none),
       Event.recv 0 InMsg.leave]).server := by
  unfold clientRoomConsistent roomMembers
  decide

/-- C2 (amended): the `join` step does keep the two registries mutually
consistent for the joining client — in the same step it writes the client
entry (with the room identifier) and adds the client to that room's member
set.  The global invariant claimed by C2 fails only because the explicit
`leave` handler removes the client from the member set without clearing or
removing its client entry (see the counterexample). -/
theorem c2_join_updates_both_registries (fails : Nat → Bool) (ws : Nat)
    (l : Local) (cid rid : String) (nm? : Option String) (s : ServerState) :
    assocGet (handleJoin fails ws l (some cid) (some rid) nm? s).1.clients cid
        = some ⟨ws, rid, nm?.getD "Anonymous"⟩
    ∧ cid ∈ roomMembers (handleJoin fails ws l (some cid) (some rid) nm? s).1 rid := by
  constructor
  · rw [handleJoin_clients]
    exact assocGet_assocSet_self _ _ _
  · rw [roomMembers, handleJoin_rooms, assocGet_assocSet_self]
    exact mem_setAdd_self _ _

theorem handleLeave_no_room (fails : Nat → Bool) (cid? : Option String)
    (rid : String) (s : ServerState) (hr : rid ≠ "")
    (hm : assocGet s.rooms rid = none) :
    handleLeave fails ⟨cid?, some rid⟩ s = s := by
  simp [handleLeave, hr, hm]

/-- C3 counterexample: client `a` and client `b` join room `r`, then `a`
sends `leave` twice.  Because the handler never resets the connection's
local `room_id` (and the room still exists while `b` remains), the second
`leave` runs the whole notification loop again: `b` receives a second
`peer_left` broadcast, so two `peer_left` messages are sent in total,
refuting the claimed "at most one". -/
theorem c3_counterexample :
    ¬ (((run (fun _ => false)
      [Event.connect 0, Event.recv 0 (InMsg.join (some "a") (some "r") none),
       Event.connect 1, Event.recv 1 (InMsg.join (some "b") (some "r") none),
       Event.recv 0 InMsg.leave,
       Event.recv 0 InMsg.leave]).server.sent.filter
        (fun p => isPeerLeft p.2)).length ≤ 1) := by
  decide

/-- C3 (amended): a second `leave` from the same connection changes no
registry state (the member set is discarded a second time without effect
and the room registry is rewritten with the same value), and a `leave`
from a connection that never joined (local `room_id` still `None`) is a
complete no-op; but the second `leave` does re-broadcast `peer_left` to
the remaining members when the client's room still exists (see the
counterexample), so only the registry part of the idempotence claim
holds. -/
theorem c3_second_leave_preserves_registries (fails : Nat → Bool) (l : Local)
    (s : ServerState) (h : nodupKeys s.rooms) :
    ((handleLeave fails l (handleLeave fails l s)).clients
        = (handleLeave fails l s).clients
      ∧ (handleLeave fails l (handleLeave fails l s)).rooms
        = (handleLeave fails l s).rooms)
    ∧ ∀ c : Option String, handleLeave fails ⟨c, none⟩ s = s := by
  refine ⟨⟨by rw [handleLeave_clients, handleLeave_clients], ?_⟩, fun c => rfl⟩
  obtain ⟨cid?, rid?⟩ := l
  cases rid? with
  | none => rfl
  | some rid =>
    by_cases hr : rid = ""
    · simp [handleLeave, hr]
    · cases hm : assocGet s.rooms rid with
      | none =>
        have h1 : handleLeave fails ⟨cid?, some rid⟩ s = s :=
          handleLeave_no_room fails cid? rid s hr hm
        rw [h1, h1]
      | some ms =>
        by_cases he : setDiscard ms cid? = []
        · have h1 : (handleLeave fails ⟨cid?, some rid⟩ s).rooms
              = assocErase (assocSet s.rooms rid []) rid := by
            simp [handleLeave, hr, hm, he, leaveNotify]
          have h2 : assocGet (handleLeave fails ⟨cid?, some rid⟩ s).rooms rid = none := by
            rw [h1]
            exact assocGet_assocErase_assocSet rid [] h
          rw [handleLeave_no_room fails cid? rid _ hr h2]
        · have h1 : (handleLeave fails ⟨cid?, some rid⟩ s).rooms
              = assocSet s.rooms rid (setDiscard ms cid?) := by
            simp only [handleLeave, if_neg hr, hm]
            by_cases hab : (leaveNotify fails s.clients cid?
                (setDiscard ms cid?) s.sent).2
            · simp [hab]
            · simp [hab, he]
          exact handleLeave_rooms_stable fails cid? rid _ (setDiscard ms cid?) hr
            (by rw [h1]; exact assocGet_assocSet_self _ _ _)
            (setDiscard_idem ms cid?) he

/-- Witness for C3 (amended) at a concrete state: the room registry
has no duplicate keys, and the double-leave of client `a` from room `r`
leaves the registries of the first leave unchanged. -/
theorem c3_second_leave_preserves_registries_witness :
    nodupKeys ([("r", ["a", "b"])] : List (String × List String))
    ∧ ((handleLeave (fun _ => false) ⟨some "a", some "r"⟩
          (handleLeave (fun _ => false) ⟨some "a", some "r"⟩
            ⟨[("b", ⟨1, "r", "B"⟩)], [("r", ["a", "b"])], []⟩)).clients
        = (handleLeave (fun _ => false) ⟨some "a", some "r"⟩
            ⟨[("b", ⟨1, "r", "B"⟩)], [("r", ["a", "b"])], []⟩).clients
      ∧ (handleLeave (fun _ => false) ⟨some "a", some "r"⟩
          (handleLeave (fun _ => false) ⟨some "a", some "r"⟩
            ⟨[("b", ⟨1, "r", "B"⟩)], [("r", ["a", "b"])], []⟩)).rooms
        = (handleLeave (fun _ => false) ⟨some "a", some "r"⟩
            ⟨[("b", ⟨1, "r", "B"⟩)], [("r", ["a", "b"])], []⟩).rooms)
    ∧ ∀ c : Option String, handleLeave (fun _ => false) ⟨c, none⟩
        ⟨[("b", ⟨1, "r", "B"⟩)], [("r", ["a", "b"])], []⟩
        = ⟨[("b", ⟨1, "r", "B"⟩)], [("r", ["a", "b"])], []⟩ :=
  ⟨by unfold nodupKeys; decide,
   c3_second_leave_preserves_registries (fun _ => false) ⟨some "a", some "r"⟩
     ⟨[("b", ⟨1, "r", "B"⟩)], [("r", ["a", "b"])], []⟩
     (by unfold nodupKeys; decide)⟩

/-- C4 counterexample: client `a` joins room `r` and then sends an explicit
`leave`; afterwards `a`'s entry is still present in the client registry
(the `leave` branch never touches the `clients` dictionary), and a later
relay message from registered client `b` targeting `a` still resolves and
is delivered to `a`'s connection — refuting both parts of the claim. -/
theorem c4_counterexample :
    assocGet (run (fun _ => false)
      [Event.connect 0, Event.recv 0 (InMsg.join (some "a") (some "r") none),
       Event.recv 0 InMsg.leave,
       Event.connect 1, Event.recv 1 (InMsg.join (some "b") (some "q") none),
       Event.recv 1 (InMsg.relay [("type", JVal.str "offer"),
         ("target", JVal.str "a"), ("sdp", JVal.str "x")])]).server.clients "a"
      = some ⟨0, "r", "Anonymous"⟩
    ∧ (0, OutMsg.relayMsg [("type", JVal.str "offer"), ("target", JVal.str "a"),
        ("sdp", JVal.str "x"), ("from", JVal.str "b")])
      ∈ (run (fun _ => false)
      [Event.connect 0, Event.recv 0 (InMsg.join (some "a") (some "r") none),
       Event.recv 0 InMsg.leave,
       Event.connect 1, Event.recv 1 (InMsg.join (some "b") (some "q") none),
       Event.recv 1 (InMsg.relay [("type", JVal.str "offer"),
         ("target", JVal.str "a"), ("sdp", JVal.str "x")])]).server.sent := by
  constructor
  · decide
  · decide

/-- C4 (amended): an explicit `leave` never destroys the Client entry —
the `clients` dictionary is untouched by the `leave` handler, so relay
messages targeting the departed client still resolve; the entry is
destroyed only by disconnect-cleanup, which (for a non-empty identifier,
given the duplicate-free key invariant of a dictionary) removes it from
the client registry. -/
theorem c4_leave_keeps_client_entry (fails : Nat → Bool) (l : Local)
    (s : ServerState) (cid : String) (rid? : Option String)
    (hcid : cid ≠ "") (hnd : nodupKeys s.clients) :
    (handleLeave fails l s).clients = s.clients
    ∧ assocGet (handleCleanup fails ⟨some cid, rid?⟩ s).clients cid = none := by
  refine ⟨handleLeave_clients fails l s, ?_⟩
  rw [handleCleanup_clients fails cid rid? s hcid]
  exact assocGet_assocErase_self hnd

/-- Witness for C4 (amended) at a concrete state. -/
theorem c4_leave_keeps_client_entry_witness :
    ("a" : String) ≠ ""
    ∧ ((handleLeave (fun _ => false) ⟨some "a", some "r"⟩
          ⟨[("a", ⟨0, "r", "A"⟩)], [("r", ["a"])], []⟩).clients
        = [("a", ⟨0, "r", "A"⟩)]
      ∧ assocGet (handleCleanup (fun _ => false) ⟨some "a", some "r"⟩
          ⟨[("a", ⟨0, "r", "A"⟩)], [("r", ["a"])], []⟩).clients "a" = none) :=
  ⟨by decide,
   c4_leave_keeps_client_entry (fun _ => false) ⟨some "a", some "r"⟩
     ⟨[("a", ⟨0, "r", "A"⟩)], [("r", ["a"])], []⟩ "a" (some "r")
     (by decide) (by unfold nodupKeys; decide)⟩

/-- The disconnect-cleanup path of the `sent` log: cleanup always runs its
notification loop to completion over the post-discard member list, with the
already-shrunken client registry. -/
theorem handleCleanup_sent (fails : Nat → Bool) (cid rid : String)
    (ms : List String) (s : ServerState)
    (hcid : cid ≠ "") (hrid : rid ≠ "") (hms : assocGet s.rooms rid = some ms) :
    (handleCleanup fails ⟨some cid, some rid⟩ s).sent
      = cleanupNotify fails (assocErase s.clients cid) cid
          (ms.filter (fun y => y ≠ cid)) s.sent := by
  simp only [handleCleanup, if_neg hcid, if_neg hrid, hms]
  split <;> rfl

/-- A send-failure pattern in which exactly the connection numbered 1
raises on send. -/
def failsConnOne : Nat → Bool := fun w => w == 1

/-- Three clients `a`, `b`, `c` join room `r` (connections 0, 1, 2), and
then `a` sends `leave`; connection 1 (client `b`) raises on every send. -/
def leaveAbortEvents : List Event :=
  [Event.connect 0, Event.recv 0 (InMsg.join (some "a") (some "r") none),
   Event.connect 1, Event.recv 1 (InMsg.join (some "b") (some "r") none),
   Event.connect 2, Event.recv 2 (InMsg.join (some "c") (some "r") none),
   Event.recv 0 InMsg.leave]

/-- C5 counterexample: in `leaveAbortEvents` under `failsConnOne`, client
`c` is registered on the non-failing connection 2 and remains a member of
room `r` after `a`'s leave, yet connection 2 never receives any message at
all — in particular no `peer_left`: the failing send to `b` aborts the
`leave` broadcast loop before `c` is attempted, so the broadcast does not
complete the full recipient list. -/
theorem c5_counterexample :
    assocGet (run failsConnOne leaveAbortEvents).server.clients "c"
        = some ⟨2, "r", "Anonymous"⟩
    ∧ "c" ∈ roomMembers (run failsConnOne leaveAbortEvents).server "r"
    ∧ ((run failsConnOne leaveAbortEvents).server.sent.filter
        (fun p => p.1 == 2)).length = 0 := by
  refine ⟨by decide, by unfold roomMembers; decide, by decide⟩

/-- C5 (amended): only the disconnect-cleanup broadcast is per-recipient
best-effort: whatever connections fail, every remaining member of the
departed client's room that is still registered and whose own connection
accepts the send receives the `peer_left` notification — a failure to one
member never prevents the delivery attempts to the others and never reaches
the caller.  The `join` and `leave` broadcast loops do not have this
property: a failing send there aborts the rest of the handler (see the
counterexample). -/
theorem c5_cleanup_broadcast_best_effort (fails : Nat → Bool) (s : ServerState)
    (cid rid : String) (ms : List String) (o : String) (info : ClientInfo)
    (hcid : cid ≠ "") (hrid : rid ≠ "") (hms : assocGet s.rooms rid = some ms)
    (ho : o ∈ ms) (hoc : o ≠ cid)
    (hi : assocGet (assocErase s.clients cid) o = some info)
    (hf : fails info.ws = false) :
    (info.ws, OutMsg.peerLeft (some cid))
      ∈ (handleCleanup fails ⟨some cid, some rid⟩ s).sent := by
  rw [handleCleanup_sent fails cid rid ms s hcid hrid hms]
  exact mem_cleanupNotify (List.mem_filter.mpr ⟨ho, by simp [hoc]⟩) hi hf

/-- Witness for C5 (amended): with clients `a`, `b`, `c` in room `r` and
`b`'s connection failing, the cleanup of `a` still delivers `peer_left` to
`c`'s connection. -/
theorem c5_cleanup_broadcast_best_effort_witness :
    ("c" : String) ∈ (["a", "b", "c"] : List String)
    ∧ (2, OutMsg.peerLeft (some "a"))
      ∈ (handleCleanup failsConnOne ⟨some "a", some "r"⟩
          ⟨[("a", ⟨0, "r", "A"⟩), ("b", ⟨1, "r", "B"⟩), ("c", ⟨2, "r", "C"⟩)],
           [("r", ["a", "b", "c"])], []⟩).sent :=
  ⟨by decide,
   c5_cleanup_broadcast_best_effort failsConnOne
     ⟨[("a", ⟨0, "r", "A"⟩), ("b", ⟨1, "r", "B"⟩), ("c", ⟨2, "r", "C"⟩)],
      [("r", ["a", "b", "c"])], []⟩
     "a" "r" ["a", "b", "c"] "c" ⟨2, "r", "C"⟩
     (by decide) (by decide) (by decide) (by decide) (by decide)
     (by decide) (by decide)⟩

/-- C6 counterexample: the empty string is a perfectly valid caller-supplied
client identifier — after `join {client_id: "", room_id: "r"}` it is
currently registered — yet a relay message from registered client `x`
whose `target` names it is silently dropped: the handler's Python
truthiness test `if target_id and target_id in clients` treats the empty
string as absent.  No relay message is delivered to anyone, refuting the
claim for this registered target. -/
theorem c6_counterexample :
    assocGet (run (fun _ => false)
      [Event.connect 0, Event.recv 0 (InMsg.join (some "") (some "r") none),
       Event.connect 1, Event.recv 1 (InMsg.join (some "x") (some "r") none),
       Event.recv 1 (InMsg.relay [("type", JVal.str "offer"),
         ("target", JVal.str ""), ("sdp", JVal.str "p")])]).server.clients ""
      = some ⟨0, "r", "Anonymous"⟩
    ∧ ((run (fun _ => false)
      [Event.connect 0, Event.recv 0 (InMsg.join (some "") (some "r") none),
       Event.connect 1, Event.recv 1 (InMsg.join (some "x") (some "r") none),
       Event.recv 1 (InMsg.relay [("type", JVal.str "offer"),
         ("target", JVal.str ""), ("sdp", JVal.str "p")])]).server.sent.filter
        (fun p => isRelayed p.2)).length = 0 := by
  exact ⟨by decide, by decide⟩

/-- C6 (amended): for every relay message whose `target` field names a
currently registered client with a NON-EMPTY identifier (an empty-string
target is treated as absent by the handler's truthiness check and
dropped), and whose sender has joined as `a`, the target's connection
receives exactly one message: the input record with `from` set to `a` and
every other field untouched; the registries are unchanged. -/
theorem c6_relay_delivered_verbatim (fails : Nat → Bool) (l : Local)
    (data : List (String × JVal)) (s : ServerState)
    (a t : String) (info : ClientInfo)
    (ha : l.client_id = some a)
    (ht : assocGet data "target" = some (JVal.str t))
    (hne : t ≠ "")
    (hreg : assocGet s.clients t = some info)
    (hok : fails info.ws = false) :
    (handleRelay fails l data s).sent
      = s.sent ++ [(info.ws, OutMsg.relayMsg (assocSet data "from" (JVal.str a)))]
    ∧ (handleRelay fails l data s).clients = s.clients
    ∧ (handleRelay fails l data s).rooms = s.rooms
    ∧ assocGet (assocSet data "from" (JVal.str a)) "from" = some (JVal.str a)
    ∧ ∀ k, k ≠ "from" → assocGet (assocSet data "from" (JVal.str a)) k = assocGet data k := by
  refine ⟨?_, handleRelay_clients fails l data s, handleRelay_rooms fails l data s,
    assocGet_assocSet_self _ _ _, fun k hk => assocGet_assocSet_ne _ _ _ _ hk⟩
  simp [handleRelay, ht, hne, hreg, ha, hok]

/-- Witness for C6 (amended): registered client `b` (connection 7) receives
the offer from sender `a` with `from` stamped and the payload intact. -/
theorem c6_relay_delivered_verbatim_witness :
    assocGet ([("b", ⟨7, "r", "B"⟩)] : List (String × ClientInfo)) "b"
        = some ⟨7, "r", "B"⟩
    ∧ ((handleRelay (fun _ => false) ⟨some "a", some "r"⟩
          [("type", JVal.str "offer"), ("target", JVal.str "b"), ("sdp", JVal.str "x")]
          ⟨[("b", ⟨7, "r", "B"⟩)], [("r", ["b"])], []⟩).sent
        = [] ++ [(7, OutMsg.relayMsg (assocSet
            [("type", JVal.str "offer"), ("target", JVal.str "b"), ("sdp", JVal.str "x")]
            "from" (JVal.str "a")))]
      ∧ (handleRelay (fun _ => false) ⟨some "a", some "r"⟩
          [("type", JVal.str "offer"), ("target", JVal.str "b"), ("sdp", JVal.str "x")]
          ⟨[("b", ⟨7, "r", "B"⟩)], [("r", ["b"])], []⟩).clients
        = [("b", ⟨7, "r", "B"⟩)]
      ∧ (handleRelay (fun _ => false) ⟨some "a", some "r"⟩
          [("type", JVal.str "offer"), ("target", JVal.str "b"), ("sdp", JVal.str "x")]
          ⟨[("b", ⟨7, "r", "B"⟩)], [("r", ["b"])], []⟩).rooms
        = [("r", ["b"])]
      ∧ assocGet (assocSet
            [("type", JVal.str "offer"), ("target", JVal.str "b"), ("sdp", JVal.str "x")]
            "from" (JVal.str "a")) "from" = some (JVal.str "a")
      ∧ ∀ k, k ≠ "from" → assocGet (assocSet
            [("type", JVal.str "offer"), ("target", JVal.str "b"), ("sdp", JVal.str "x")]
            "from" (JVal.str "a")) k
          = assocGet [("type", JVal.str "offer"), ("target", JVal.str "b"),
              ("sdp", JVal.str "x")] k) :=
  ⟨by decide,
   c6_relay_delivered_verbatim (fun _ => false) ⟨some "a", some "r"⟩
     [("type", JVal.str "offer"), ("target", JVal.str "b"), ("sdp", JVal.str "x")]
     ⟨[("b", ⟨7, "r", "B"⟩)], [("r", ["b"])], []⟩ "a" "b" ⟨7, "r", "B"⟩
     rfl (by decide) (by decide) (by decide) rfl⟩

/-- C7: when client `A` is alone in room `r1` (its sole current member,
with a registered client entry) and a distinct client `B` joins `r1` on
connection `ws` (both connections accepting sends), exactly two messages
are produced, in order: `A`'s connection receives exactly one
`peer_joined` carrying `B`'s identifier and name, and `B`'s connection
receives a `room_joined` whose peer list is exactly the one pair for `A`
— computed from the member set after `B` was added, excluding `B`. -/
theorem c7_second_join_notifications (fails : Nat → Bool) (ws : Nat) (l : Local)
    (s : ServerState) (A B r1 : String) (nm? : Option String) (infoA : ClientInfo)
    (hA : assocGet s.clients A = some infoA)
    (hr : assocGet s.rooms r1 = some [A])
    (hne : B ≠ A)
    (hfa : fails infoA.ws = false)
    (hfb : fails ws = false) :
    (handleJoin fails ws l (some B) (some r1) nm? s).1.sent
      = s.sent ++ [(infoA.ws, OutMsg.peerJoined B (nm?.getD "Anonymous")),
                   (ws, OutMsg.roomJoined [(A, infoA.name)])] := by
  have hAB : ¬(A = B) := fun e => hne e.symm
  have hms' : setAdd [A] B = [A, B] := by
    simp [setAdd, hne]
  have hgetA : assocGet (assocSet s.clients B ⟨ws, r1, nm?.getD "Anonymous"⟩) A
      = some infoA := by
    rw [assocGet_assocSet_ne s.clients B A _ hne.symm]
    exact hA
  have hnotify : joinNotify fails (assocSet s.clients B ⟨ws, r1, nm?.getD "Anonymous"⟩)
      B (nm?.getD "Anonymous") [A, B] s.sent
      = (s.sent ++ [(infoA.ws, OutMsg.peerJoined B (nm?.getD "Anonymous"))], false) := by
    simp only [joinNotify, if_neg hAB, hgetA, hfa, Bool.false_eq_true, if_false,
      if_pos rfl]
    simp
  have hpeers : List.filterMap (fun p =>
        if p = B then none
        else (assocGet (assocSet s.clients B ⟨ws, r1, nm?.getD "Anonymous"⟩) p).map
          (fun i => (p, i.name))) [A, B]
      = [(A, infoA.name)] := by
    simp [List.filterMap_cons, hAB, hgetA]
  simp only [handleJoin, hr, Option.getD_some, hms', hnotify, Bool.false_eq_true,
    if_false, hpeers, hfb]
  simp

/-- Witness for C7: `a` alone in room `r` on connection 0; `b` joins on
connection 1 with name `Bee`. -/
theorem c7_second_join_notifications_witness :
    assocGet ([("a", ⟨0, "r", "A"⟩)] : List (String × ClientInfo)) "a"
        = some ⟨0, "r", "A"⟩
    ∧ (handleJoin (fun _ => false) 1 ⟨none, none⟩ (some "b") (some "r")
          (some "Bee") ⟨[("a", ⟨0, "r", "A"⟩)], [("r", ["a"])], []⟩).1.sent
      = [] ++ [(0, OutMsg.peerJoined "b" "Bee"), (1, OutMsg.roomJoined [("a", "A")])] :=
  ⟨by decide,
   c7_second_join_notifications (fun _ => false) 1 ⟨none, none⟩
     ⟨[("a", ⟨0, "r", "A"⟩)], [("r", ["a"])], []⟩ "a" "b" "r" (some "Bee")
     ⟨0, "r", "A"⟩ (by decide) (by decide) (by decide) rfl rfl⟩

/-- C8: a relay-type message whose `target` field is absent, is not a
(non-empty) string naming a client, or names an identifier not currently
registered, is silently dropped: the whole server state — both registries
and the send log — is exactly unchanged, nothing is delivered to anyone,
and no error is surfaced (the handler returns normally, so the sender's
receive loop and connection continue undisturbed). -/
theorem c8_unroutable_relay_drops_silently (fails : Nat → Bool) (l : Local)
    (data : List (String × JVal)) (s : ServerState)
    (H : match assocGet data "target" with
      | some (JVal.str t) => t = "" ∨ assocGet s.clients t = none
      | some JVal.jnull => True
      | some (JVal.blob _) => True
      | none => True) :
    handleRelay fails l data s = s := by
  cases ht : assocGet data "target" with
  | none => simp [handleRelay, ht]
  | some v =>
    cases v with
    | jnull => simp [handleRelay, ht]
    | blob n => simp [handleRelay, ht]
    | str t =>
      simp only [ht] at H
      rcases H with h0 | hcl
      · simp [handleRelay, ht, h0]
      · by_cases h0 : t = ""
        · simp [handleRelay, ht, h0]
        · simp [handleRelay, ht, h0, hcl]

/-- Witness for C8: an offer targeting the unregistered identifier `z`
leaves the server state untouched. -/
theorem c8_unroutable_relay_drops_silently_witness :
    (match assocGet [("type", JVal.str "offer"), ("target", JVal.str "z")] "target" with
      | some (JVal.str t) => t = ""
          ∨ assocGet ([("a", ⟨0, "r", "A"⟩)] : List (String × ClientInfo)) t = none
      | some JVal.jnull => True
      | some (JVal.blob _) => True
      | none => True)
    ∧ handleRelay (fun _ => false) ⟨some "a", some "r"⟩
        [("type", JVal.str "offer"), ("target", JVal.str "z")]
        ⟨[("a", ⟨0, "r", "A"⟩)], [("r", ["a"])], []⟩
      = ⟨[("a", ⟨0, "r", "A"⟩)], [("r", ["a"])], []⟩ :=
  ⟨Or.inr rfl,
   c8_unroutable_relay_drops_silently (fun _ => false) ⟨some "a", some "r"⟩
     [("type", JVal.str "offer"), ("target", JVal.str "z")]
     ⟨[("a", ⟨0, "r", "A"⟩)], [("r", ["a"])], []⟩ (Or.inr rfl)⟩

/-- C9 counterexample: the empty string is a registrable caller-supplied
identifier — `join {client_id: "", room_id: "r"}` creates the entry and the
membership — but when that connection terminates, the `if client_id:`
truthiness guard at the top of the `finally` block skips disconnect-cleanup
entirely: afterwards the empty-identifier client is still registered, the
member set of `"r"` still contains it, and the remaining member `b`
receives no `peer_left` — every conjunct of the claim fails for this
client that joined via a valid join message. -/
theorem c9_counterexample :
    assocGet (run (fun _ => false)
      [Event.connect 0, Event.recv 0 (InMsg.join (some "") (some "r") none),
       Event.connect 1, Event.recv 1 (InMsg.join (some "b") (some "r") none),
       Event.disconnect 0]).server.clients ""
      = some ⟨0, "r", "Anonymous"⟩
    ∧ "" ∈ roomMembers (run (fun _ => false)
      [Event.connect 0, Event.recv 0 (InMsg.join (some "") (some "r") none),
       Event.connect 1, Event.recv 1 (InMsg.join (some "b") (some "r") none),
       Event.disconnect 0]).server "r"
    ∧ ((run (fun _ => false)
      [Event.connect 0, Event.recv 0 (InMsg.join (some "") (some "r") none),
       Event.connect 1, Event.recv 1 (InMsg.join (some "b") (some "r") none),
       Event.disconnect 0]).server.sent.filter
        (fun p => isPeerLeft p.2)).length = 0 :=
  ⟨by decide, by unfold roomMembers; decide, by decide⟩

/-- C9 (amended): for a client with a NON-EMPTY identifier that had joined
a room with a NON-EMPTY identifier (its locals are `some cid` / `some rid`
and the room's member set is `ms`), connection termination runs
disconnect-cleanup so that afterwards: the client's entry is gone from the
client registry; `cid` is no longer a member of `rid`; if `cid` was the
sole member the room entry itself is removed; and every other member of
`ms` still registered after the deletion, whose own connection accepts
sends, receives a `peer_left` carrying `cid` — regardless of failures on
any other connection.  For an empty (Python-falsy) client identifier the
`if client_id:` guard skips cleanup entirely, and for an empty room
identifier the `if room_id and ...` guard skips the room part (see the
counterexample). -/
theorem c9_disconnect_cleanup (fails : Nat → Bool) (s : ServerState)
    (cid rid : String) (ms : List String)
    (hcid : cid ≠ "") (hrid : rid ≠ "")
    (hms : assocGet s.rooms rid = some ms)
    (hndc : nodupKeys s.clients) (hndr : nodupKeys s.rooms) :
    assocGet (handleCleanup fails ⟨some cid, some rid⟩ s).clients cid = none
    ∧ cid ∉ roomMembers (handleCleanup fails ⟨some cid, some rid⟩ s) rid
    ∧ (ms = [cid] →
        assocGet (handleCleanup fails ⟨some cid, some rid⟩ s).rooms rid = none)
    ∧ ∀ o info, o ∈ ms → o ≠ cid →
        assocGet (assocErase s.clients cid) o = some info →
        fails info.ws = false →
        (info.ws, OutMsg.peerLeft (some cid))
          ∈ (handleCleanup fails ⟨some cid, some rid⟩ s).sent := by
  refine ⟨?_, ?_, ?_, ?_⟩
  · rw [handleCleanup_clients fails cid (some rid) s hcid]
    exact assocGet_assocErase_self hndc
  · by_cases he : ms.filter (fun y => y ≠ cid) = []
    · have hrooms : (handleCleanup fails ⟨some cid, some rid⟩ s).rooms
          = assocErase (assocSet s.rooms rid []) rid := by
        simp only [handleCleanup, if_neg hcid, if_neg hrid, hms, he, if_pos rfl]
        simp
      have hnone : assocGet (handleCleanup fails ⟨some cid, some rid⟩ s).rooms rid
          = none := by
        rw [hrooms]
        exact assocGet_assocErase_assocSet rid [] hndr
      simp [roomMembers, hnone]
    · have hrooms : (handleCleanup fails ⟨some cid, some rid⟩ s).rooms
          = assocSet s.rooms rid (ms.filter (fun y => y ≠ cid)) := by
        simp only [handleCleanup, if_neg hcid, if_neg hrid, hms, if_neg he]
      have hsome : assocGet (handleCleanup fails ⟨some cid, some rid⟩ s).rooms rid
          = some (ms.filter (fun y => y ≠ cid)) := by
        rw [hrooms]
        exact assocGet_assocSet_self _ _ _
      simp [roomMembers, hsome, List.mem_filter]
  · intro hsole
    have he : ms.filter (fun y => y ≠ cid) = [] := by
      rw [hsole]
      simp
    have hrooms : (handleCleanup fails ⟨some cid, some rid⟩ s).rooms
        = assocErase (assocSet s.rooms rid []) rid := by
      simp only [handleCleanup, if_neg hcid, if_neg hrid, hms, he, if_pos rfl]
      simp
    rw [hrooms]
    exact assocGet_assocErase_assocSet rid [] hndr
  · intro o info ho hoc hio hfo
    rw [handleCleanup_sent fails cid rid ms s hcid hrid hms]
    exact mem_cleanupNotify (List.mem_filter.mpr ⟨ho, by simp [hoc]⟩) hio hfo

/-- Witness for C9: clients `a` (connection 0) and `b` (connection 1) in
room `r`; `a`'s connection terminates; `a` is deregistered and `b`
receives the `peer_left`. -/
theorem c9_disconnect_cleanup_witness :
    ("a" : String) ≠ ""
    ∧ assocGet (handleCleanup (fun _ => false) ⟨some "a", some "r"⟩
        ⟨[("a", ⟨0, "r", "A"⟩), ("b", ⟨1, "r", "B"⟩)],
         [("r", ["a", "b"])], []⟩).clients "a" = none
    ∧ (1, OutMsg.peerLeft (some "a"))
      ∈ (handleCleanup (fun _ => false) ⟨some "a", some "r"⟩
        ⟨[("a", ⟨0, "r", "A"⟩), ("b", ⟨1, "r", "B"⟩)],
         [("r", ["a", "b"])], []⟩).sent :=
  ⟨by decide,
   (c9_disconnect_cleanup (fun _ => false)
     ⟨[("a", ⟨0, "r", "A"⟩), ("b", ⟨1, "r", "B"⟩)], [("r", ["a", "b"])], []⟩
     "a" "r" ["a", "b"] (by decide) (by decide) (by decide)
     (by unfold nodupKeys; decide) (by unfold nodupKeys; decide)).1,
   (c9_disconnect_cleanup (fun _ => false)
     ⟨[("a", ⟨0, "r", "A"⟩), ("b", ⟨1, "r", "B"⟩)], [("r", ["a", "b"])], []⟩
     "a" "r" ["a", "b"] (by decide) (by decide) (by decide)
     (by unfold nodupKeys; decide) (by unfold nodupKeys; decide)).2.2.2
     "b" ⟨1, "r", "B"⟩ (by decide) (by decide) (by decide) rfl⟩

/-- C10 counterexample: a relay sent from a connection that never joined,
targeting the registered empty-string client, is NOT forwarded: the
truthiness check drops it even though the target is registered, so the
claim's universal statement fails at the empty identifier. -/
theorem c10_counterexample :
    assocGet (run (fun _ => false)
      [Event.connect 0, Event.recv 0 (InMsg.join (some "") (some "r") none),
       Event.connect 1,
       Event.recv 1 (InMsg.relay [("type", JVal.str "offer"),
         ("target", JVal.str ""), ("sdp", JVal.str "p")])]).server.clients ""
      = some ⟨0, "r", "Anonymous"⟩
    ∧ ((run (fun _ => false)
      [Event.connect 0, Event.recv 0 (InMsg.join (some "") (some "r") none),
       Event.connect 1,
       Event.recv 1 (InMsg.relay [("type", JVal.str "offer"),
         ("target", JVal.str ""), ("sdp", JVal.str "p")])]).server.sent.filter
        (fun p => isRelayed p.2)).length = 0 :=
  ⟨by decide, by decide⟩

/-- C10 (amended): a relay message from a connection that never sent a
valid join (local `client_id` still `None`) is still forwarded whenever
its `target` names a registered client with a non-empty identifier: the
target's connection receives the record with the added `from` field set to
the null identity (`None`), not a rejection for lack of registration. -/
theorem c10_relay_without_join_gets_null_from (fails : Nat → Bool) (l : Local)
    (data : List (String × JVal)) (s : ServerState) (t : String) (info : ClientInfo)
    (ha : l.client_id = none)
    (ht : assocGet data "target" = some (JVal.str t))
    (hne : t ≠ "")
    (hreg : assocGet s.clients t = some info)
    (hok : fails info.ws = false) :
    (handleRelay fails l data s).sent
      = s.sent ++ [(info.ws, OutMsg.relayMsg (assocSet data "from" JVal.jnull))] := by
  simp [handleRelay, ht, hne, hreg, ha, hok]

/-- Witness for C10 (amended): a never-joined connection relays an offer to
registered client `b`; `b` receives it with `from` = null. -/
theorem c10_relay_without_join_gets_null_from_witness :
    assocGet ([("b", ⟨7, "r", "B"⟩)] : List (String × ClientInfo)) "b"
        = some ⟨7, "r", "B"⟩
    ∧ (handleRelay (fun _ => false) ⟨none, none⟩
        [("type", JVal.str "offer"), ("target", JVal.str "b"), ("sdp", JVal.str "x")]
        ⟨[("b", ⟨7, "r", "B"⟩)], [("r", ["b"])], []⟩).sent
      = [] ++ [(7, OutMsg.relayMsg (assocSet
          [("type", JVal.str "offer"), ("target", JVal.str "b"), ("sdp", JVal.str "x")]
          "from" JVal.jnull))] :=
  ⟨by decide,
   c10_relay_without_join_gets_null_from (fun _ => false) ⟨none, none⟩
     [("type", JVal.str "offer"), ("target", JVal.str "b"), ("sdp", JVal.str "x")]
     ⟨[("b", ⟨7, "r", "B"⟩)], [("r", ["b"])], []⟩ "b" ⟨7, "r", "B"⟩
     rfl (by decide) (by decide) (by decide) rfl⟩
